import Mathlib

/-!
Verification of the PDF-to-DOCX converter pipeline (`streamlit_app.py`).

The bespoke logic of the repository is embedded shallowly:

* `clean_text` mirrors the sanitizer
  `re.sub(r'[\x00-\x08\x0b\x0c\x0e-\x1f\x7f]', '', text or "")`.
* `page_needs_ocr` mirrors the per-page OCR heuristic.
* `needs_ocr` mirrors the combined decision on line 83 of the app,
  `(mode == "Force OCR (all pages)") or (mode == "Auto (Hybrid)" and page_needs_ocr(parsed_text))`.
* `composePage` mirrors the body of the page loop in `convert_pdf`,
  producing the list of DOCX blocks appended for one page; `convert_pdf`
  iterates it over all pages in increasing index order.

External collaborators (PyMuPDF, pdfplumber, Tesseract, python-docx) are
modelled at their call boundaries: a `PageData` record carries, for one
page, the raw text returned by `page.get_text("text")`, the result of
`page.extract_tables()` (an `Except` since the call may raise, which the
code catches), and the text that rendering the page at a given zoom and
running OCR with a given language would return (a function of zoom and
language, since those two configuration values reach the output only
through that external call). pdfplumber returns rectangular grids of
cells, each cell a string or `None`; an out-of-range cell lookup is
modelled as a missing (`None`) cell. DOCX output is modelled as the list
of appended blocks; serialization to bytes is outside the bespoke logic.
-/

/-- One cell of an extracted table: a string or Python `None`. -/
abbrev Cell := Option String

/-- A table as returned by `pdfplumber.extract_tables()`: rows of cells. -/
abbrev Table := List (List Cell)

/-- A block appended to the output DOCX document: a heading
(`add_heading`), a paragraph (`add_paragraph`), or a table (`add_table`
with its cells filled in). -/
inductive Block where
  | heading (text : String) (level : Nat)
  | para (text : String)
  | table (cells : List (List String))
  deriving DecidableEq, Repr

/-- Characters removed by the sanitizer: the regex class
`[\x00-\x08\x0b\x0c\x0e-\x1f\x7f]`. -/
def isIllegalChar (c : Char) : Bool :=
  (c.toNat ≤ 0x08) || (c.toNat == 0x0b) || (c.toNat == 0x0c) ||
  (0x0e ≤ c.toNat && c.toNat ≤ 0x1f) || (c.toNat == 0x7f)

/-- Sanitizer core on a present string: `re.sub(r'[...]', '', text)`
removes every character of the class and keeps the rest in order. -/
def clean_text (s : String) : String :=
  String.mk (s.toList.filter (fun c => !isIllegalChar c))

/-- The sanitizer as called: `clean_text(text)` with `text or ""`, so an
absent (`None`) input is mapped to the empty string first. -/
def clean_textOpt (t : Option String) : String :=
  clean_text (t.getD "")

/-- Count of alphabetic characters:
`letters = sum(c.isalpha() for c in parsed_text)`. The Python alphabetic
test `str.isalpha` is modelled by the alphabetic character predicate. -/
def letterCount (s : String) : Nat :=
  s.toList.countP (fun c => c.isAlpha)

/-- The per-page heuristic `page_needs_ocr`: true on an empty string,
otherwise true exactly when fewer than 25 alphabetic characters. -/
def page_needs_ocr (parsed_text : String) : Bool :=
  if parsed_text = "" then true
  else decide (letterCount parsed_text < 25)

/-- The mode strings offered by the sidebar radio widget. -/
def modeAuto : String := "Auto (Hybrid)"

/-- Mode string forcing OCR on every page. -/
def modeForceOCR : String := "Force OCR (all pages)"

/-- Mode string disabling OCR entirely. -/
def modeParserOnly : String := "Parser only (no OCR)"

/-- The combined OCR decision of line 83:
`need_ocr = (mode == "Force OCR (all pages)") or (mode == "Auto (Hybrid)" and page_needs_ocr(parsed_text))`. -/
def needs_ocr (parsed_text : String) (mode : String) : Bool :=
  (mode == modeForceOCR) || (mode == modeAuto && page_needs_ocr parsed_text)

/-- Per-page data obtained from the external libraries. `rawText` is
`page_fitz.get_text("text")`; `tables` is the outcome of
`page_plumber.extract_tables()` (`Except.error` when the call raises);
`ocrText zoom lang` is `pytesseract.image_to_string` applied to the page
rendered at the given zoom, with the given language hint. -/
structure PageData where
  rawText : String
  tables : Except String (List Table)
  ocrText : Rat → String → String

/-- Step 1 of the page loop: parsed text is extracted and sanitized only
when `mode in ("Auto (Hybrid)", "Parser only (no OCR)")`, else it stays
the initial empty string. -/
def parsedTextOf (mode : String) (pd : PageData) : String :=
  if mode == modeAuto || mode == modeParserOnly then clean_text pd.rawText
  else ""

/-- Step 2 of the page loop: tables are extracted only in the parsing
modes, and an extraction exception is caught and turned into `[]`. -/
def tablesOf (mode : String) (pd : PageData) : List Table :=
  if mode == modeAuto || mode == modeParserOnly then
    match pd.tables with
    | Except.ok ts => ts
    | Except.error _ => []
  else []

/-- Step 3 of the page loop: the OCR decision for this page. -/
def needOcrOf (mode : String) (pd : PageData) : Bool :=
  needs_ocr (parsedTextOf mode pd) mode

/-- Step 4 of the page loop: `if parsed_text and not need_ocr`, emit the
parsed text as a paragraph (and set `page_text_written`). -/
def parsedBlocks (mode : String) (pd : PageData) : List Block :=
  if !(parsedTextOf mode pd).isEmpty && !needOcrOf mode pd then
    [Block.para (parsedTextOf mode pd)]
  else []

/-- Cell text written into the DOCX table:
`clean_text(str(val) if val is not None else "")` where `val = tbl[r][c]`. -/
def cellText (tbl : Table) (r c : Nat) : String :=
  clean_text (match (tbl.getD r []).getD c none with
    | some v => v
    | none => "")

/-- The grid of cell strings for one emitted table: `rows = len(tbl)`
rows and `cols = len(tbl[0])` columns, each cell passed through
`cellText`. -/
def gridOf (tbl : Table) : List (List String) :=
  (List.range tbl.length).map (fun r =>
    (List.range (tbl.headD []).length).map (fun c => cellText tbl r c))

/-- Blocks contributed by one extracted table inside step 5:
`if not tbl or not tbl[0]: continue`, otherwise the filled table followed
by an empty spacing paragraph. -/
def emitTable (tbl : Table) : List Block :=
  if tbl.isEmpty || (tbl.headD []).isEmpty then []
  else [Block.table (gridOf tbl), Block.para ""]

/-- Step 5 of the page loop: `if tables and not need_ocr`, write every
table (each through `emitTable`). -/
def tableBlocks (mode : String) (pd : PageData) : List Block :=
  if !(tablesOf mode pd).isEmpty && !needOcrOf mode pd then
    (tablesOf mode pd).flatMap emitTable
  else []

/-- Whitespace characters for Python `str.strip` and `str.isspace`. -/
def pyIsSpace (c : Char) : Bool :=
  (0x09 ≤ c.toNat && c.toNat ≤ 0x0d) ||
  (0x1c ≤ c.toNat && c.toNat ≤ 0x1f) ||
  (c.toNat == 0x20) || (c.toNat == 0x85) || (c.toNat == 0xa0) ||
  (c.toNat == 0x1680) ||
  (0x2000 ≤ c.toNat && c.toNat ≤ 0x200a) ||
  (c.toNat == 0x2028) || (c.toNat == 0x2029) ||
  (c.toNat == 0x202f) || (c.toNat == 0x205f) || (c.toNat == 0x3000)

/-- Python `str.strip` on a character list: drop whitespace from both
ends. -/
def pyStripList (l : List Char) : List Char :=
  ((l.dropWhile pyIsSpace).reverse.dropWhile pyIsSpace).reverse

/-- Python `str.strip`. -/
def pyStrip (s : String) : String :=
  String.mk (pyStripList s.toList)

/-- Step 6 of the page loop: when OCR is needed, render the page at the
configured zoom, OCR it with the configured language, sanitize, and emit
`ocr_text if ocr_text.strip() else "[No text detected]"` as a paragraph
(and set `page_text_written`). -/
def ocrBlocks (mode : String) (zoom : Rat) (ocr_lang : String) (pd : PageData) :
    List Block :=
  if needOcrOf mode pd then
    [Block.para
      (if pyStrip (clean_text (pd.ocrText zoom ocr_lang)) = ""
       then "[No text detected]"
       else clean_text (pd.ocrText zoom ocr_lang))]
  else []

/-- The `page_text_written` flag after steps 4 and 6: set by step 4
(parsed paragraph emitted) or by step 6 (OCR paragraph emitted). -/
def pageWritten (mode : String) (pd : PageData) : Bool :=
  (!(parsedTextOf mode pd).isEmpty && !needOcrOf mode pd) || needOcrOf mode pd

/-- Step 7 of the page loop: `if not page_text_written`, emit the
placeholder paragraph. -/
def placeholderBlocks (mode : String) (pd : PageData) : List Block :=
  if !pageWritten mode pd then
    [Block.para "[No extractable content on this page]"]
  else []

/-- All blocks appended for page `i` (0-based), in the order the code
appends them: optional "Page {i+1}" heading, then steps 4, 5, 6, 7. -/
def composePage (mode : String) (zoom : Rat) (ocr_lang : String)
    (add_page_headings : Bool) (i : Nat) (pd : PageData) : List Block :=
  (if add_page_headings then [Block.heading ("Page " ++ toString (i + 1)) 2]
   else [])
  ++ parsedBlocks mode pd
  ++ tableBlocks mode pd
  ++ ocrBlocks mode zoom ocr_lang pd
  ++ placeholderBlocks mode pd

/-- The per-page block groups of the conversion loop
`for i in range(total)`, starting at index `i`. -/
def pageGroups (mode : String) (zoom : Rat) (ocr_lang : String)
    (add_page_headings : Bool) (i : Nat) : List PageData → List (List Block)
  | [] => []
  | pd :: rest =>
      composePage mode zoom ocr_lang add_page_headings i pd ::
      pageGroups mode zoom ocr_lang add_page_headings (i + 1) rest

/-- The whole conversion: iterate the pages in increasing order from
index 0 and append every page's blocks to the output document. -/
def convert_pdf (mode : String) (zoom : Rat) (ocr_lang : String)
    (add_page_headings : Bool) (pages : List PageData) : List Block :=
  (pageGroups mode zoom ocr_lang add_page_headings 0 pages).flatten

/-- Default page used by `List.getD` in statements about page order. -/
def defaultPage : PageData :=
  ⟨"", Except.ok [], fun _ _ => ""⟩

/-- A well-formed 2 by 2 sample table used in concrete instantiations. -/
def sampleTable : Table := [[some "a", some "b"], [some "c", some "d"]]

/-- A malformed sample table whose first row has zero columns. -/
def sampleBadTable : Table := [[]]

/-- A sample page whose only extractable content is `sampleTable`. -/
def pageTablesW : PageData := ⟨"", Except.ok [sampleTable], fun _ _ => ""⟩

/-- A sample page whose OCR result is a short word. -/
def pageOcrW : PageData := ⟨"", Except.ok [], fun _ _ => "hello"⟩

/-! ## Helper lemmas -/

lemma clean_text_toList (s : String) :
    (clean_text s).toList = s.toList.filter (fun c => !isIllegalChar c) := rfl

lemma dropWhile_all_iff (p : α → Bool) (l : List α) :
    (∀ a ∈ l.dropWhile p, p a) ↔ (∀ a ∈ l, p a) := by
  constructor
  · intro h a ha
    rw [← List.takeWhile_append_dropWhile p l] at ha
    rcases List.mem_append.mp ha with h1 | h2
    · exact List.mem_takeWhile_imp h1
    · exact h a h2
  · intro h a ha
    exact h a ((List.dropWhile_sublist p).mem ha)

lemma pyStripList_eq_nil (l : List Char) :
    pyStripList l = [] ↔ l.all pyIsSpace = true := by
  unfold pyStripList
  rw [List.reverse_eq_nil_iff, List.dropWhile_eq_nil_iff, List.all_eq_true]
  constructor
  · intro h
    apply (dropWhile_all_iff pyIsSpace l).mp
    intro a ha
    exact h a (List.mem_reverse.mpr ha)
  · intro h a ha
    exact (dropWhile_all_iff pyIsSpace l).mpr h a (List.mem_reverse.mp ha)

lemma pyStrip_eq_empty (s : String) :
    pyStrip s = "" ↔ s.toList.all pyIsSpace = true := by
  unfold pyStrip
  rw [show ("" : String) = String.mk [] from rfl]
  have hmk : (String.mk (pyStripList s.toList) = String.mk []) ↔
      pyStripList s.toList = [] :=
    ⟨fun h => congrArg String.data h, fun h => congrArg String.mk h⟩
  rw [hmk]
  exact pyStripList_eq_nil s.toList

lemma range_map_getD (n : Nat) (f : Nat → α) (r : Nat) (d : α) (hr : r < n) :
    ((List.range n).map f).getD r d = f r := by
  rw [List.getD_eq_getElem?_getD, List.getElem?_map, List.getElem?_range hr]
  rfl

/-! ## Claim theorems -/

/-- C8: the sanitizer returns exactly the input with the characters of
the ranges 0x00 to 0x08, 0x0b, 0x0c, 0x0e to 0x1f and 0x7f removed, its
result contains no character of those ranges, and an absent input maps
to the empty string; as a total Lean function it is pure and never
fails. -/
theorem c8_sanitizer_removes_control_chars (t : Option String) :
    clean_textOpt t = String.mk ((t.getD "").toList.filter fun c => !isIllegalChar c)
    ∧ (∀ c ∈ (clean_textOpt t).toList, isIllegalChar c = false)
    ∧ clean_textOpt none = "" := by
  refine ⟨rfl, ?_, rfl⟩
  intro c hc
  have h : c ∈ (t.getD "").toList.filter fun c => !isIllegalChar c := hc
  have h2 := (List.mem_filter.mp h).2
  simpa using h2

/-- C9: the sanitizer is idempotent. -/
theorem c9_sanitizer_idempotent (s : String) :
    clean_text (clean_text s) = clean_text s := by
  show String.mk ((s.toList.filter fun c => !isIllegalChar c).filter
      fun c => !isIllegalChar c) = _
  rw [List.filter_filter]
  simp [clean_text]

/-- C3: in Auto (hybrid) mode the OCR decision is true exactly when the
parsed text is empty or has fewer than 25 alphabetic characters; in
particular it is true on the empty string, false on thirty letters, and
true on three spaces. -/
theorem c3_auto_mode_heuristic (s : String) :
    (needs_ocr s modeAuto = true ↔ (s = "" ∨ letterCount s < 25))
    ∧ needs_ocr "" modeAuto = true
    ∧ needs_ocr (String.mk (List.replicate 30 'A')) modeAuto = false
    ∧ needs_ocr "   " modeAuto = true := by
  refine ⟨?_, by decide, by decide, by decide⟩
  have h1 : (modeAuto == modeForceOCR) = false := by decide
  have h2 : (modeAuto == modeAuto) = true := by decide
  simp only [needs_ocr, h1, h2, Bool.false_or, Bool.true_and]
  unfold page_needs_ocr
  by_cases hs : s = ""
  · simp [hs]
  · simp [hs]

/-- C4: for every parsed text the OCR decision is true in Force-OCR mode
and false in Parser-only mode. -/
theorem c4_forced_modes (t : String) :
    needs_ocr t modeForceOCR = true ∧ needs_ocr t modeParserOnly = false := by
  constructor
  · have h : (modeForceOCR == modeForceOCR) = true := by decide
    simp [needs_ocr, h]
  · have h1 : (modeParserOnly == modeForceOCR) = false := by decide
    have h2 : (modeParserOnly == modeAuto) = false := by decide
    simp [needs_ocr, h1, h2]

/-- C2: for every page and configuration exactly one of the three
primary-content steps fires (parsed-text paragraph, OCR paragraph, or
the no-content placeholder), with the stated firing conditions, while
table emission is an additive separate segment of the page blocks that
does not depend on which primary step fired, and the primary steps do
not depend on the extracted tables. -/
theorem c2_exactly_one_primary (mode : String) (zoom : Rat) (lang : String)
    (addH : Bool) (i : Nat) (pd : PageData) (tr : Except String (List Table)) :
    composePage mode zoom lang addH i pd =
      (if addH then [Block.heading ("Page " ++ toString (i + 1)) 2] else [])
        ++ parsedBlocks mode pd ++ tableBlocks mode pd
        ++ ocrBlocks mode zoom lang pd ++ placeholderBlocks mode pd
    ∧ ((parsedBlocks mode pd ≠ [] ∧ ocrBlocks mode zoom lang pd = []
          ∧ placeholderBlocks mode pd = [])
       ∨ (parsedBlocks mode pd = [] ∧ ocrBlocks mode zoom lang pd ≠ []
          ∧ placeholderBlocks mode pd = [])
       ∨ (parsedBlocks mode pd = [] ∧ ocrBlocks mode zoom lang pd = []
          ∧ placeholderBlocks mode pd ≠ []))
    ∧ (parsedBlocks mode pd ≠ [] ↔
        ((parsedTextOf mode pd).isEmpty = false ∧ needOcrOf mode pd = false))
    ∧ (ocrBlocks mode zoom lang pd ≠ [] ↔ needOcrOf mode pd = true)
    ∧ parsedBlocks mode (PageData.mk pd.rawText tr pd.ocrText) = parsedBlocks mode pd
    ∧ ocrBlocks mode zoom lang (PageData.mk pd.rawText tr pd.ocrText)
        = ocrBlocks mode zoom lang pd
    ∧ placeholderBlocks mode (PageData.mk pd.rawText tr pd.ocrText)
        = placeholderBlocks mode pd := by
  refine ⟨rfl, ?_, ?_, ?_, rfl, rfl, rfl⟩ <;>
  · rcases Bool.eq_false_or_eq_true (needOcrOf mode pd) with h2 | h2 <;>
      rcases Bool.eq_false_or_eq_true ((parsedTextOf mode pd).isEmpty) with h1 | h1 <;>
        simp [parsedBlocks, ocrBlocks, placeholderBlocks, pageWritten, h1, h2]

/-- C6: whenever OCR runs for a page, the emitted paragraph is the
sanitized OCR text, replaced by the literal placeholder when that
sanitized text is empty or consists of whitespace only, and the page is
marked as having content. -/
theorem c6_ocr_paragraph (mode : String) (zoom : Rat) (lang : String)
    (pd : PageData) (hocr : needOcrOf mode pd = true) :
    ocrBlocks mode zoom lang pd =
      [Block.para
        (if (clean_text (pd.ocrText zoom lang)).toList.all pyIsSpace = true
         then "[No text detected]"
         else clean_text (pd.ocrText zoom lang))]
    ∧ pageWritten mode pd = true := by
  constructor
  · unfold ocrBlocks
    rw [hocr]
    simp only [if_true]
    rw [if_congr (pyStrip_eq_empty (clean_text (pd.ocrText zoom lang))) rfl rfl]
  · simp [pageWritten, hocr]

/-- C5: with OCR not needed, the table step writes every extracted table
through the skip rule; a table whose first row is non-empty becomes a
table block of sanitized cell strings (a missing cell value becomes the
empty string) followed by a spacing paragraph, and a table that is empty
or whose first row has zero columns contributes nothing. -/
theorem c5_table_emission (mode : String) (pd : PageData) (tbl tblBad : Table)
    (r c : Nat)
    (hno : needOcrOf mode pd = false)
    (hwf : (tbl.headD []).isEmpty = false)
    (hbad : tblBad = [] ∨ tblBad.headD [] = [])
    (hr : r < tbl.length) (hc : c < (tbl.headD []).length) :
    tableBlocks mode pd = (tablesOf mode pd).flatMap emitTable
    ∧ emitTable tbl = [Block.table (gridOf tbl), Block.para ""]
    ∧ (gridOf tbl).length = tbl.length
    ∧ ((gridOf tbl).getD r []).length = (tbl.headD []).length
    ∧ ((gridOf tbl).getD r []).getD c "" =
        clean_text (((tbl.getD r []).getD c none).getD "")
    ∧ emitTable tblBad = [] := by
  have htne : tbl.isEmpty = false := by
    cases tbl with
    | nil => simp [List.headD] at hwf
    | cons a t => rfl
  have hwf2 : tbl.headD [] ≠ [] := by
    intro h
    rw [h] at hwf
    simp at hwf
  refine ⟨?_, ?_, ?_, ?_, ?_, ?_⟩
  · rcases Bool.eq_false_or_eq_true ((tablesOf mode pd).isEmpty) with h | h
    · rw [List.isEmpty_iff] at h
      simp [tableBlocks, h]
    · simp [tableBlocks, h, hno]
  · simp [emitTable, htne, List.headD_eq_head? tbl] at hwf ⊢
    simp [hwf]
  · simp [gridOf]
  · rw [gridOf, range_map_getD tbl.length _ r [] hr]
    simp
  · rw [gridOf, range_map_getD tbl.length _ r [] hr,
      range_map_getD (tbl.headD []).length _ c "" hc]
    unfold cellText
    rcases (tbl.getD r []).getD c none with _ | v <;> rfl
  · rcases hbad with hb | hb
    · simp [emitTable, hb]
    · rw [List.headD_eq_head?] at hb
      simp [emitTable, hb]

/-- Every page contributes at least one block: one of the three primary
steps always emits a paragraph. -/
lemma composePage_ne_nil (mode : String) (zoom : Rat) (lang : String)
    (addH : Bool) (i : Nat) (pd : PageData) :
    composePage mode zoom lang addH i pd ≠ [] := by
  rcases Bool.eq_false_or_eq_true (needOcrOf mode pd) with h2 | h2 <;>
    rcases Bool.eq_false_or_eq_true ((parsedTextOf mode pd).isEmpty) with h1 | h1 <;>
      simp [composePage, parsedBlocks, ocrBlocks, placeholderBlocks,
        pageWritten, h1, h2]

/-- The page loop yields one block group per page. -/
lemma pageGroups_length (mode : String) (zoom : Rat) (lang : String)
    (addH : Bool) (i : Nat) (pages : List PageData) :
    (pageGroups mode zoom lang addH i pages).length = pages.length := by
  induction pages generalizing i with
  | nil => rfl
  | cons pd rest ih => simp [pageGroups, ih]

/-- The group at position k of the page loop started at index i is the
composition of page k with heading index i + k. -/
lemma pageGroups_getD (mode : String) (zoom : Rat) (lang : String)
    (addH : Bool) (pages : List PageData) (i k : Nat) (hk : k < pages.length) :
    (pageGroups mode zoom lang addH i pages).getD k [] =
      composePage mode zoom lang addH (i + k) (pages.getD k defaultPage) := by
  induction pages generalizing i k with
  | nil => simp at hk
  | cons pd rest ih =>
    cases k with
    | zero => simp [pageGroups]
    | succ k =>
      have hk2 : k < rest.length := Nat.lt_of_succ_lt_succ hk
      have := ih (i + 1) k hk2
      simp only [pageGroups, List.getD_cons_succ]
      rw [this, show i + 1 + k = i + (k + 1) from by omega]

/-- C1: the conversion output is the concatenation of one block group
per source page; the groups are as many as the pages, the group at each
position k is the composition of source page k with heading number k+1
(so groups follow the increasing source page order), and no group is
empty. -/
theorem c1_page_coverage (mode : String) (zoom : Rat) (lang : String)
    (addH : Bool) (pages : List PageData) (k : Nat) (hk : k < pages.length) :
    convert_pdf mode zoom lang addH pages =
        (pageGroups mode zoom lang addH 0 pages).flatten
    ∧ (pageGroups mode zoom lang addH 0 pages).length = pages.length
    ∧ (pageGroups mode zoom lang addH 0 pages).getD k [] =
        composePage mode zoom lang addH k (pages.getD k defaultPage)
    ∧ (pageGroups mode zoom lang addH 0 pages).getD k [] ≠ [] := by
  refine ⟨rfl, pageGroups_length mode zoom lang addH 0 pages, ?_, ?_⟩
  · have h := pageGroups_getD mode zoom lang addH pages 0 k hk
    simpa using h
  · have h := pageGroups_getD mode zoom lang addH pages 0 k hk
    rw [h]
    exact composePage_ne_nil mode zoom lang addH (0 + k) (pages.getD k defaultPage)

/-- C7: a table-extraction failure on a page is recovered locally: the
page composes exactly as if extraction had returned zero tables, and the
loop still produces one group for every page, so the error does not
propagate out of the conversion. -/
theorem c7_table_failure_recovered (mode : String) (zoom : Rat) (lang : String)
    (addH : Bool) (i : Nat) (e : String) (raw : String)
    (ocrF : Rat → String → String) (pages : List PageData) :
    composePage mode zoom lang addH i (PageData.mk raw (Except.error e) ocrF) =
      composePage mode zoom lang addH i (PageData.mk raw (Except.ok []) ocrF)
    ∧ (pageGroups mode zoom lang addH i pages).length = pages.length :=
  ⟨rfl, pageGroups_length mode zoom lang addH i pages⟩

/-- C10: writing table blocks does not mark a page as having content: in
Parser-only mode a page with empty sanitized parsed text and at least
one well-formed extracted table receives both the table block and the
no-content placeholder paragraph. -/
theorem c10_tables_do_not_mark_content (zoom : Rat) (lang : String)
    (addH : Bool) (i : Nat) (raw : String) (tr : List Table) (tbl : Table)
    (ocrF : Rat → String → String)
    (hparsed : clean_text raw = "")
    (hmem : tbl ∈ tr)
    (hwf : (tbl.headD []).isEmpty = false) :
    Block.table (gridOf tbl) ∈
      composePage modeParserOnly zoom lang addH i
        (PageData.mk raw (Except.ok tr) ocrF)
    ∧ Block.para "[No extractable content on this page]" ∈
      composePage modeParserOnly zoom lang addH i
        (PageData.mk raw (Except.ok tr) ocrF) := by
  have hmode1 : (modeParserOnly == modeAuto) = false := by decide
  have hmode2 : (modeParserOnly == modeParserOnly) = true := by decide
  have hmode3 : (modeParserOnly == modeForceOCR) = false := by decide
  have hpt : parsedTextOf modeParserOnly (PageData.mk raw (Except.ok tr) ocrF) = "" := by
    simp [parsedTextOf, hmode1, hmode2, hparsed]
  have hno : needOcrOf modeParserOnly (PageData.mk raw (Except.ok tr) ocrF) = false := by
    simp [needOcrOf, needs_ocr, hmode3, hmode1]
  have htb : tablesOf modeParserOnly (PageData.mk raw (Except.ok tr) ocrF) = tr := by
    simp [tablesOf, hmode1, hmode2]
  have htrne : tr ≠ [] := List.ne_nil_of_mem hmem
  have htblne : tbl.isEmpty = false := by
    cases tbl with
    | nil => simp [List.headD] at hwf
    | cons a t => rfl
  have hemit : emitTable tbl = [Block.table (gridOf tbl), Block.para ""] := by
    simp [emitTable, htblne, List.headD_eq_head? tbl] at hwf ⊢
    simp [hwf]
  have hie : ("" : String).isEmpty = true := by decide
  have hpb : parsedBlocks modeParserOnly (PageData.mk raw (Except.ok tr) ocrF) = [] := by
    simp [parsedBlocks, hpt, hie]
  have hob : ocrBlocks modeParserOnly zoom lang (PageData.mk raw (Except.ok tr) ocrF) = [] := by
    simp [ocrBlocks, hno]
  have hphb : placeholderBlocks modeParserOnly (PageData.mk raw (Except.ok tr) ocrF) =
      [Block.para "[No extractable content on this page]"] := by
    simp [placeholderBlocks, pageWritten, hpt, hno, hie]
  have htbb : tableBlocks modeParserOnly (PageData.mk raw (Except.ok tr) ocrF) =
      tr.flatMap emitTable := by
    simp [tableBlocks, htb, htrne, hno]
  constructor
  · rw [composePage, hpb, hob, hphb, htbb]
    simp only [List.mem_append]
    refine Or.inl (Or.inl (Or.inr ?_))
    rw [List.mem_flatMap]
    exact ⟨tbl, hmem, by rw [hemit]; exact List.mem_cons_self _ _⟩
  · rw [composePage, hpb, hob, hphb, htbb]
    simp

/-- Concrete instantiation of the page coverage theorem on a one-page
document in Auto mode. -/
theorem c1_page_coverage_witness :
    0 < List.length [pageOcrW]
    ∧ (convert_pdf modeAuto 2 "eng" true [pageOcrW] =
        (pageGroups modeAuto 2 "eng" true 0 [pageOcrW]).flatten
      ∧ (pageGroups modeAuto 2 "eng" true 0 [pageOcrW]).length =
          List.length [pageOcrW]
      ∧ (pageGroups modeAuto 2 "eng" true 0 [pageOcrW]).getD 0 [] =
          composePage modeAuto 2 "eng" true 0 (List.getD [pageOcrW] 0 defaultPage)
      ∧ (pageGroups modeAuto 2 "eng" true 0 [pageOcrW]).getD 0 [] ≠ []) :=
  ⟨by decide, c1_page_coverage modeAuto 2 "eng" true [pageOcrW] 0 (by decide)⟩

/-- Concrete instantiation of the table emission theorem on the sample
2 by 2 table and the malformed sample table in Parser-only mode. -/
theorem c5_table_emission_witness :
    needOcrOf modeParserOnly pageTablesW = false
    ∧ (sampleTable.headD []).isEmpty = false
    ∧ (sampleBadTable = [] ∨ sampleBadTable.headD [] = [])
    ∧ 1 < sampleTable.length
    ∧ 1 < (sampleTable.headD []).length
    ∧ (tableBlocks modeParserOnly pageTablesW =
        (tablesOf modeParserOnly pageTablesW).flatMap emitTable
      ∧ emitTable sampleTable = [Block.table (gridOf sampleTable), Block.para ""]
      ∧ (gridOf sampleTable).length = sampleTable.length
      ∧ ((gridOf sampleTable).getD 1 []).length = (sampleTable.headD []).length
      ∧ ((gridOf sampleTable).getD 1 []).getD 1 "" =
          clean_text (((sampleTable.getD 1 []).getD 1 none).getD "")
      ∧ emitTable sampleBadTable = []) :=
  ⟨by decide, by decide, by decide, by decide, by decide,
    c5_table_emission modeParserOnly pageTablesW sampleTable sampleBadTable 1 1
      (by decide) (by decide) (by decide) (by decide) (by decide)⟩

/-- Concrete instantiation of the OCR paragraph theorem on a forced-OCR
page whose OCR result is a short word. -/
theorem c6_ocr_paragraph_witness :
    needOcrOf modeForceOCR pageOcrW = true
    ∧ (ocrBlocks modeForceOCR 2 "eng" pageOcrW =
        [Block.para
          (if (clean_text (pageOcrW.ocrText 2 "eng")).toList.all pyIsSpace = true
           then "[No text detected]"
           else clean_text (pageOcrW.ocrText 2 "eng"))]
      ∧ pageWritten modeForceOCR pageOcrW = true) :=
  ⟨by decide, c6_ocr_paragraph modeForceOCR 2 "eng" pageOcrW (by decide)⟩

/-- Concrete instantiation of the table-content theorem: a Parser-only
page with no parsed text and one well-formed table receives both the
table block and the placeholder paragraph. -/
theorem c10_tables_do_not_mark_content_witness :
    clean_text "" = ""
    ∧ sampleTable ∈ [sampleTable]
    ∧ (sampleTable.headD []).isEmpty = false
    ∧ (Block.table (gridOf sampleTable) ∈
        composePage modeParserOnly 2 "eng" true 0
          (PageData.mk "" (Except.ok [sampleTable]) (fun _ _ => ""))
      ∧ Block.para "[No extractable content on this page]" ∈
        composePage modeParserOnly 2 "eng" true 0
          (PageData.mk "" (Except.ok [sampleTable]) (fun _ _ => ""))) :=
  ⟨by decide, by decide, by decide,
    c10_tables_do_not_mark_content 2 "eng" true 0 "" [sampleTable] sampleTable
      (fun _ _ => "") (by decide) (by decide) (by decide)⟩
